import Mathlib

/-!
Shallow embedding of the streak-challenge core of `streak_club`
(`src/server/core/streak.ts`, `src/server/core/stats.ts`,
`src/server/core/rate_limit.ts`), together with theorems settling the
frozen claims about its specification.

TypeScript `number` values are modelled as `Int` (all values involved in
the claims are integers); nullable fields become `Option`; functions that
`throw` return `Except String`.
-/

namespace StreakClub

/-- Hard cap on freeze tokens (`MAX_FREEZE_TOKENS` in `streak.ts`). -/
def MAX_FREEZE_TOKENS : Int := 2

/-- One milestone entry of `BADGE_MILESTONES`. -/
structure BadgeMilestone where
  streak : Int
  badge : String
deriving DecidableEq, Repr

/-- `BADGE_MILESTONES` from `streak.ts`. -/
def BADGE_MILESTONES : List BadgeMilestone :=
  [⟨7, "Committed"⟩, ⟨30, "Consistent"⟩, ⟨90, "Disciplined"⟩,
   ⟨180, "Unstoppable"⟩, ⟨365, "Legend"⟩]

/-- The `Privacy` union type (`'public' | 'private'`). -/
inductive Privacy where
  | pub
  | priv
deriving DecidableEq, Repr

/-- The `UserState` record from `streak.ts`. -/
structure UserState where
  joinedAt : String
  privacy : Privacy
  currentStreak : Int
  bestStreak : Int
  streakStartDayUTC : Option Int
  lastCheckinDayUTC : Option Int
  freezeTokens : Int
  freezeSaves : Int
  badges : List String
  isParticipant : Bool
deriving DecidableEq, Repr

/-- The `CheckInMetadata` record from `streak.ts`. -/
structure CheckInMetadata where
  usedFreeze : Bool
  earnedFreeze : Bool
  tokenCount : Int
  earnedBadge : Option String
deriving DecidableEq, Repr

/-- The `CheckInResult` record from `streak.ts`. -/
structure CheckInResult where
  state : UserState
  metadata : CheckInMetadata
deriving DecidableEq, Repr

/-- `canCheckIn` from `streak.ts`: allowed when there is no recorded
check-in day, or when `day` is strictly after it. -/
def canCheckIn (userState : UserState) (day : Int) : Bool :=
  match userState.lastCheckinDayUTC with
  | none => true
  | some lastCheckinDay => day > lastCheckinDay

/-- `missedDays` as computed in `applyCheckInWithMetadata`:
`0` when `lastCheckinDayUTC` is null, else `day - last`. -/
def missedDays (userState : UserState) (day : Int) : Int :=
  match userState.lastCheckinDayUTC with
  | none => 0
  | some last => day - last

/-- `canContinueWithFreeze` from `applyCheckInWithMetadata`:
the gap is exactly 2 days and a freeze token is available. -/
def canContinueWithFreeze (userState : UserState) (day : Int) : Bool :=
  missedDays userState day == 2 && userState.freezeTokens > 0

/-- Freeze-token count after the (possible) consumption step of
`applyCheckInWithMetadata`, before the earning step. -/
def tokensAfterConsume (userState : UserState) (day : Int) : Int :=
  if canContinueWithFreeze userState day then userState.freezeTokens - 1
  else userState.freezeTokens

/-- `isContinuation` from `applyCheckInWithMetadata`:
consecutive day, or a freeze-covered 2-day gap. -/
def isContinuation (userState : UserState) (day : Int) : Bool :=
  missedDays userState day == 1 || canContinueWithFreeze userState day

/-- `hasTrackableStreak` from `applyCheckInWithMetadata`. -/
def hasTrackableStreak (userState : UserState) : Bool :=
  userState.streakStartDayUTC.isSome && userState.currentStreak > 0

/-- The new `currentStreak` computed by `applyCheckInWithMetadata`. -/
def newCurrentStreak (userState : UserState) (day : Int) : Int :=
  if isContinuation userState day && hasTrackableStreak userState then
    userState.currentStreak + 1
  else 1

/-- The new `streakStartDayUTC` computed by `applyCheckInWithMetadata`. -/
def newStreakStart (userState : UserState) (day : Int) : Option Int :=
  if isContinuation userState day && hasTrackableStreak userState then
    userState.streakStartDayUTC
  else some day

/-- The freeze-earning test of `applyCheckInWithMetadata`: the new streak
is a multiple of 7 and the post-consumption token count is below the cap.
(In the source the new streak is always at least 1, so `%` agrees with
Lean's `Int.emod`.) -/
def earnsFreeze (userState : UserState) (day : Int) : Bool :=
  newCurrentStreak userState day % 7 == 0 &&
    tokensAfterConsume userState day < MAX_FREEZE_TOKENS

/-- Freeze-token count after both the consumption and the earning step. -/
def tokensAfterEarn (userState : UserState) (day : Int) : Int :=
  if earnsFreeze userState day then tokensAfterConsume userState day + 1
  else tokensAfterConsume userState day

/-- The milestone-badge lookup of `applyCheckInWithMetadata`:
`BADGE_MILESTONES.find(entry => entry.streak === currentStreak)?.badge ?? null`. -/
def milestoneBadge (userState : UserState) (day : Int) : Option String :=
  (BADGE_MILESTONES.find? (fun entry => entry.streak == newCurrentStreak userState day)).map
    (fun entry => entry.badge)

/-- The `earnedBadge` computed by `applyCheckInWithMetadata`: the milestone
badge for the new streak, unless already held. -/
def newEarnedBadge (userState : UserState) (day : Int) : Option String :=
  match milestoneBadge userState day with
  | some badge => if userState.badges.contains badge then none else some badge
  | none => none

/-- `applyCheckInWithMetadata` from `streak.ts`. Throwing is modelled as
returning `Except.error` with the thrown message. -/
def applyCheckInWithMetadata (userState : UserState) (day : Int) :
    Except String CheckInResult :=
  if !canCheckIn userState day then
    .error "User has already checked in for this UTC day"
  else
    let usedFreeze := canContinueWithFreeze userState day
    let freezeTokens := tokensAfterEarn userState day
    let freezeSaves :=
      if canContinueWithFreeze userState day then userState.freezeSaves + 1
      else userState.freezeSaves
    let currentStreak := newCurrentStreak userState day
    let streakStartDayUTC := newStreakStart userState day
    let bestStreak := max userState.bestStreak currentStreak
    let earnedFreeze := earnsFreeze userState day
    let earnedBadge := newEarnedBadge userState day
    let badges :=
      match earnedBadge with
      | none => userState.badges
      | some badge => userState.badges ++ [badge]
    .ok
      { state :=
          { userState with
            currentStreak := currentStreak
            bestStreak := bestStreak
            streakStartDayUTC := streakStartDayUTC
            lastCheckinDayUTC := some day
            freezeTokens := freezeTokens
            freezeSaves := freezeSaves
            badges := badges }
        metadata :=
          { usedFreeze := usedFreeze
            earnedFreeze := earnedFreeze
            tokenCount := freezeTokens
            earnedBadge := earnedBadge } }

/-- `applyCheckIn` from `streak.ts`: the state component of
`applyCheckInWithMetadata`. -/
def applyCheckIn (userState : UserState) (day : Int) : Except String UserState :=
  (applyCheckInWithMetadata userState day).map (fun result => result.state)

theorem hasTrackableStreak_eq_true_iff (s : UserState) :
    hasTrackableStreak s = true ↔
      s.streakStartDayUTC ≠ none ∧ 0 < s.currentStreak := by
  simp [hasTrackableStreak, Option.isSome_iff_ne_none, decide_eq_true_eq]

theorem newCurrentStreak_pos (s : UserState) (d : Int) :
    0 < newCurrentStreak s d := by
  unfold newCurrentStreak
  split
  · rename_i hcond
    have h1 : hasTrackableStreak s = true := by
      cases h2 : hasTrackableStreak s <;> simp [h2] at hcond ⊢
    have := (hasTrackableStreak_eq_true_iff s).mp h1
    omega
  · omega

theorem applyCheckInWithMetadata_ok (s : UserState) (d : Int)
    (h : canCheckIn s d = true) :
    applyCheckInWithMetadata s d = .ok
      { state :=
          { s with
            currentStreak := newCurrentStreak s d
            bestStreak := max s.bestStreak (newCurrentStreak s d)
            streakStartDayUTC := newStreakStart s d
            lastCheckinDayUTC := some d
            freezeTokens := tokensAfterEarn s d
            freezeSaves :=
              if canContinueWithFreeze s d then s.freezeSaves + 1
              else s.freezeSaves
            badges :=
              match newEarnedBadge s d with
              | none => s.badges
              | some badge => s.badges ++ [badge] }
        metadata :=
          { usedFreeze := canContinueWithFreeze s d
            earnedFreeze := earnsFreeze s d
            tokenCount := tokensAfterEarn s d
            earnedBadge := newEarnedBadge s d } } := by
  simp [applyCheckInWithMetadata, h]

/-- C1: under `canCheckIn`, a check-in stamps `lastCheckinDayUTC = day`;
when the continuation condition (`missedDays == 1` or the freeze rule) holds
together with a trackable streak, `currentStreak` increments and
`streakStartDayUTC` is unchanged; in every other case the streak restarts at
1 with `streakStartDayUTC = day`. -/
theorem checkin_streak_transition (s : UserState) (d : Int)
    (h : canCheckIn s d = true) :
    ∃ r, applyCheckInWithMetadata s d = .ok r ∧
      r.state.lastCheckinDayUTC = some d ∧
      (((missedDays s d = 1 ∨ canContinueWithFreeze s d = true) ∧
          s.streakStartDayUTC ≠ none ∧ 0 < s.currentStreak) →
        r.state.currentStreak = s.currentStreak + 1 ∧
        r.state.streakStartDayUTC = s.streakStartDayUTC) ∧
      (¬ ((missedDays s d = 1 ∨ canContinueWithFreeze s d = true) ∧
          s.streakStartDayUTC ≠ none ∧ 0 < s.currentStreak) →
        r.state.currentStreak = 1 ∧
        r.state.streakStartDayUTC = some d) := by
  refine ⟨_, applyCheckInWithMetadata_ok s d h, rfl, ?_, ?_⟩
  · rintro ⟨hcont, hstart, hpos⟩
    have ht : hasTrackableStreak s = true :=
      (hasTrackableStreak_eq_true_iff s).mpr ⟨hstart, hpos⟩
    have hc : isContinuation s d = true := by
      rcases hcont with h1 | h1 <;> simp [isContinuation, h1]
    simp [newCurrentStreak, newStreakStart, hc, ht]
  · intro hnot
    have hfalse : (isContinuation s d && hasTrackableStreak s) = false := by
      cases hc : isContinuation s d
      · simp
      · cases ht : hasTrackableStreak s
        · simp
        · exfalso
          apply hnot
          have htr := (hasTrackableStreak_eq_true_iff s).mp ht
          refine ⟨?_, htr.1, htr.2⟩
          have h3 := hc
          unfold isContinuation at h3
          rw [Bool.or_eq_true] at h3
          rcases h3 with h1 | h1
          · exact Or.inl (by simpa using h1)
          · exact Or.inr h1
    constructor
    · simp [newCurrentStreak, hfalse]
    · simp [newStreakStart, hfalse]

theorem canContinueWithFreeze_eq_true_iff (s : UserState) (d : Int) :
    canContinueWithFreeze s d = true ↔
      ∃ last, s.lastCheckinDayUTC = some last ∧ d - last = 2 ∧
        0 < s.freezeTokens := by
  unfold canContinueWithFreeze missedDays
  cases hlast : s.lastCheckinDayUTC with
  | none => simp
  | some last => simp [hlast, and_comm]

/-- C2: under `canCheckIn`, a freeze is consumed exactly when the gap to the
previous check-in is 2 days and a token is available; consumption decrements
`freezeTokens` before the earning step and increments `freezeSaves`, and the
gap counts as a continuation; a gap of 3 or more days resets the streak and
leaves `freezeTokens` and `freezeSaves` untouched with `usedFreeze = false`. -/
theorem checkin_freeze_consumption (s : UserState) (d : Int)
    (h : canCheckIn s d = true) :
    ∃ r, applyCheckInWithMetadata s d = .ok r ∧
      (r.metadata.usedFreeze = true ↔
        ∃ last, s.lastCheckinDayUTC = some last ∧ d - last = 2 ∧
          0 < s.freezeTokens) ∧
      (r.metadata.usedFreeze = true →
        r.state.freezeTokens
            = s.freezeTokens - 1 +
                (if r.metadata.earnedFreeze = true then 1 else 0) ∧
        r.state.freezeSaves = s.freezeSaves + 1 ∧
        isContinuation s d = true) ∧
      (∀ last, s.lastCheckinDayUTC = some last → 3 ≤ d - last →
        r.state.currentStreak = 1 ∧
        r.state.streakStartDayUTC = some d ∧
        r.state.freezeTokens = s.freezeTokens ∧
        r.state.freezeSaves = s.freezeSaves ∧
        r.metadata.usedFreeze = false) := by
  refine ⟨_, applyCheckInWithMetadata_ok s d h, ?_, ?_, ?_⟩
  · exact canContinueWithFreeze_eq_true_iff s d
  · intro hused
    replace hused : canContinueWithFreeze s d = true := hused
    refine ⟨?_, ?_, ?_⟩
    · show tokensAfterEarn s d
          = s.freezeTokens - 1 + (if earnsFreeze s d = true then 1 else 0)
      cases hearn : earnsFreeze s d <;>
        simp [tokensAfterEarn, tokensAfterConsume, hused, hearn]
    · show (if canContinueWithFreeze s d = true then s.freezeSaves + 1
          else s.freezeSaves) = s.freezeSaves + 1
      simp [hused]
    · simp [isContinuation, hused]
  · intro last hlast hgap
    have hmiss : missedDays s d = d - last := by simp [missedDays, hlast]
    have hnofreeze : canContinueWithFreeze s d = false := by
      unfold canContinueWithFreeze
      rw [hmiss]
      simp only [Bool.and_eq_false_iff]
      left
      simpa using by omega
    have hnocont : isContinuation s d = false := by
      unfold isContinuation
      rw [hmiss, hnofreeze]
      simpa using by omega
    have hstreak : newCurrentStreak s d = 1 := by
      simp [newCurrentStreak, hnocont]
    have hnoearn : earnsFreeze s d = false := by
      unfold earnsFreeze
      rw [hstreak]
      simp
    refine ⟨hstreak, ?_, ?_, ?_, hnofreeze⟩
    · simp [newStreakStart, hnocont]
    · simp [tokensAfterEarn, tokensAfterConsume, hnoearn, hnofreeze]
    · simp [hnofreeze]

/-- Concrete state used to show that a freeze can be consumed and earned in
the same check-in: streak 6 with one token, checking in after a 2-day gap. -/
def bothFreezeExample : UserState :=
  { joinedAt := "1970-01-01T00:00:00.000Z"
    privacy := .pub
    currentStreak := 6
    bestStreak := 6
    streakStartDayUTC := some 5
    lastCheckinDayUTC := some 10
    freezeTokens := 1
    freezeSaves := 0
    badges := []
    isParticipant := true }

theorem tokensAfterConsume_le (s : UserState) (d : Int) :
    tokensAfterConsume s d ≤ s.freezeTokens := by
  unfold tokensAfterConsume
  split <;> omega

/-- C4: with at most 2 tokens held, a check-in earns a freeze token exactly
when the new streak is a positive multiple of 7 and the post-consumption
token count is below the cap of 2; the token count then rises by one over the
post-consumption count, never exceeds 2, and consuming and earning can both
happen in the same check-in (witnessed by `bothFreezeExample`). -/
theorem checkin_freeze_earning (s : UserState) (d : Int)
    (hcap : s.freezeTokens ≤ 2) (h : canCheckIn s d = true) :
    ∃ r, applyCheckInWithMetadata s d = .ok r ∧
      (r.metadata.earnedFreeze = true ↔
        (r.state.currentStreak % 7 = 0 ∧ 0 < r.state.currentStreak ∧
          tokensAfterConsume s d < 2)) ∧
      (r.metadata.earnedFreeze = true →
        r.state.freezeTokens = tokensAfterConsume s d + 1) ∧
      (r.metadata.earnedFreeze = false →
        r.state.freezeTokens = tokensAfterConsume s d) ∧
      r.state.freezeTokens ≤ 2 ∧
      (applyCheckInWithMetadata bothFreezeExample 12).map
          (fun result => (result.metadata.usedFreeze, result.metadata.earnedFreeze))
        = .ok (true, true) := by
  refine ⟨_, applyCheckInWithMetadata_ok s d h, ?_, ?_, ?_, ?_, by rfl⟩
  · show earnsFreeze s d = true ↔
      (newCurrentStreak s d % 7 = 0 ∧ 0 < newCurrentStreak s d ∧
        tokensAfterConsume s d < 2)
    simp only [earnsFreeze, MAX_FREEZE_TOKENS, Bool.and_eq_true, beq_iff_eq,
      decide_eq_true_eq]
    constructor
    · rintro ⟨h1, h2⟩
      exact ⟨h1, newCurrentStreak_pos s d, h2⟩
    · rintro ⟨h1, _, h2⟩
      exact ⟨h1, h2⟩
  · intro hearn
    replace hearn : earnsFreeze s d = true := hearn
    show tokensAfterEarn s d = tokensAfterConsume s d + 1
    simp [tokensAfterEarn, hearn]
  · intro hearn
    replace hearn : earnsFreeze s d = false := hearn
    show tokensAfterEarn s d = tokensAfterConsume s d
    simp [tokensAfterEarn, hearn]
  · show tokensAfterEarn s d ≤ 2
    have hle := tokensAfterConsume_le s d
    simp only [tokensAfterEarn]
    split
    · rename_i hearn
      have h2 : tokensAfterConsume s d < MAX_FREEZE_TOKENS := by
        simp only [earnsFreeze, Bool.and_eq_true, decide_eq_true_eq] at hearn
        exact hearn.2
      simp only [MAX_FREEZE_TOKENS] at h2
      omega
    · omega

/-- C6: `bestStreak` after a check-in is the maximum of the prior
`bestStreak` and the new `currentStreak`; hence it dominates the current
streak and never decreases. -/
theorem checkin_best_streak (s : UserState) (d : Int)
    (h : canCheckIn s d = true) :
    ∃ r, applyCheckInWithMetadata s d = .ok r ∧
      r.state.bestStreak = max s.bestStreak r.state.currentStreak ∧
      r.state.currentStreak ≤ r.state.bestStreak ∧
      s.bestStreak ≤ r.state.bestStreak := by
  refine ⟨_, applyCheckInWithMetadata_ok s d h, rfl, ?_, ?_⟩
  · exact le_max_right _ _
  · exact le_max_left _ _

theorem newEarnedBadge_not_mem (s : UserState) (d : Int) (b : String)
    (h : newEarnedBadge s d = some b) : b ∉ s.badges := by
  unfold newEarnedBadge at h
  cases hmil : milestoneBadge s d with
  | none => rw [hmil] at h; exact absurd h (by simp)
  | some badge =>
    rw [hmil] at h
    simp at h
    rcases h with ⟨hnm, rfl⟩
    exact hnm

theorem earnedBadge_of_milestone (s : UserState) (d : Int)
    (m : BadgeMilestone) (hm : m ∈ BADGE_MILESTONES)
    (hstreak : m.streak = newCurrentStreak s d)
    (hnot : m.badge ∉ s.badges) :
    newEarnedBadge s d = some m.badge := by
  have hmil : milestoneBadge s d = some m.badge := by
    unfold milestoneBadge
    rw [← hstreak]
    fin_cases hm <;> rfl
  unfold newEarnedBadge
  rw [hmil]
  simp [List.contains, List.elem_iff, hnot]

theorem earnedBadge_none_of_no_milestone (s : UserState) (d : Int)
    (hno : ¬ ∃ m, m ∈ BADGE_MILESTONES ∧ m.streak = newCurrentStreak s d ∧
      m.badge ∉ s.badges) :
    newEarnedBadge s d = none := by
  unfold newEarnedBadge
  cases hmil : milestoneBadge s d with
  | none => rfl
  | some b =>
    unfold milestoneBadge at hmil
    cases hfind : BADGE_MILESTONES.find?
        (fun entry => entry.streak == newCurrentStreak s d) with
    | none => rw [hfind] at hmil; exact absurd hmil (by simp)
    | some m =>
      rw [hfind] at hmil
      have hb : m.badge = b := by simpa using hmil
      have hmem := List.mem_of_find?_eq_some hfind
      have hpred : m.streak = newCurrentStreak s d := by
        simpa using List.find?_some hfind
      have hinbadges : b ∈ s.badges := by
        by_contra hc
        exact hno ⟨m, hmem, hpred, hb ▸ hc⟩
      simp [List.contains, List.elem_iff, hinbadges]

/-- C5: under `canCheckIn`, the check-in reports exactly the milestone badge
whose streak value equals the new `currentStreak` and which is not yet held,
appending it to `badges`; otherwise it reports no badge and leaves `badges`
unchanged; the old badge list is always a prefix of the new one, and a
duplicate-free badge list stays duplicate-free. -/
theorem checkin_badges (s : UserState) (d : Int)
    (h : canCheckIn s d = true) :
    ∃ r, applyCheckInWithMetadata s d = .ok r ∧
      (∀ m, m ∈ BADGE_MILESTONES → m.streak = r.state.currentStreak →
        m.badge ∉ s.badges →
        r.metadata.earnedBadge = some m.badge ∧
        r.state.badges = s.badges ++ [m.badge]) ∧
      ((¬ ∃ m, m ∈ BADGE_MILESTONES ∧ m.streak = r.state.currentStreak ∧
          m.badge ∉ s.badges) →
        r.metadata.earnedBadge = none ∧ r.state.badges = s.badges) ∧
      s.badges <+: r.state.badges ∧
      (s.badges.Nodup → r.state.badges.Nodup) := by
  refine ⟨_, applyCheckInWithMetadata_ok s d h, ?_, ?_, ?_, ?_⟩
  · intro m hm hstreak hnot
    replace hstreak : m.streak = newCurrentStreak s d := hstreak
    have heb := earnedBadge_of_milestone s d m hm hstreak hnot
    constructor
    · show newEarnedBadge s d = some m.badge
      exact heb
    · show (match newEarnedBadge s d with
        | none => s.badges
        | some badge => s.badges ++ [badge]) = s.badges ++ [m.badge]
      rw [heb]
  · intro hno
    replace hno : ¬ ∃ m, m ∈ BADGE_MILESTONES ∧
        m.streak = newCurrentStreak s d ∧ m.badge ∉ s.badges := hno
    have heb := earnedBadge_none_of_no_milestone s d hno
    constructor
    · show newEarnedBadge s d = none
      exact heb
    · show (match newEarnedBadge s d with
        | none => s.badges
        | some badge => s.badges ++ [badge]) = s.badges
      rw [heb]
  · show s.badges <+: (match newEarnedBadge s d with
      | none => s.badges
      | some badge => s.badges ++ [badge])
    cases newEarnedBadge s d with
    | none => exact List.prefix_rfl
    | some b => exact List.prefix_append s.badges [b]
  · intro hnd
    show (match newEarnedBadge s d with
      | none => s.badges
      | some badge => s.badges ++ [badge]).Nodup
    cases heb : newEarnedBadge s d with
    | none => exact hnd
    | some b =>
      have hb := newEarnedBadge_not_mem s d b heb
      simp [List.nodup_append, hnd, hb]

/-- C3: `applyCheckInWithMetadata` fails with the already-checked-in error
exactly when `lastCheckinDayUTC` is set and `day` is not after it, i.e.
exactly when `canCheckIn` is false; in particular re-submitting the same day
right after a successful check-in always fails. -/
theorem checkin_error_iff (s : UserState) (d : Int) :
    ((∃ msg, applyCheckInWithMetadata s d = .error msg) ↔
      ∃ last, s.lastCheckinDayUTC = some last ∧ d ≤ last) ∧
    ((∃ msg, applyCheckInWithMetadata s d = .error msg) ↔
      canCheckIn s d = false) ∧
    (∀ s1, applyCheckIn s d = .ok s1 →
      applyCheckInWithMetadata s1 d
        = .error "User has already checked in for this UTC day") := by
  have herr : (∃ msg, applyCheckInWithMetadata s d = .error msg) ↔
      canCheckIn s d = false := by
    constructor
    · rintro ⟨msg, hmsg⟩
      cases hc : canCheckIn s d
      · rfl
      · rw [applyCheckInWithMetadata_ok s d hc] at hmsg
        exact absurd hmsg (by simp)
    · intro hc
      refine ⟨"User has already checked in for this UTC day", ?_⟩
      simp [applyCheckInWithMetadata, hc]
  refine ⟨?_, herr, ?_⟩
  · rw [herr]
    unfold canCheckIn
    cases hlast : s.lastCheckinDayUTC with
    | none => simp
    | some last => simp [hlast]
  · intro s1 hs1
    cases hc : canCheckIn s d with
    | false =>
      unfold applyCheckIn at hs1
      rw [(herr.mpr hc).choose_spec] at hs1
      exact absurd hs1 (by simp [Except.map])
    | true =>
      unfold applyCheckIn at hs1
      rw [applyCheckInWithMetadata_ok s d hc] at hs1
      have h2 := Except.ok.inj hs1
      have hlast : s1.lastCheckinDayUTC = some d := by
        rw [← h2]
      have hno : canCheckIn s1 d = false := by
        unfold canCheckIn
        rw [hlast]
        simp
      simp [applyCheckInWithMetadata, hno]

/-- Concrete mid-streak state used to instantiate the check-in theorems. -/
def exampleState : UserState :=
  { joinedAt := "1970-01-01T00:00:00.000Z"
    privacy := .pub
    currentStreak := 3
    bestStreak := 5
    streakStartDayUTC := some 7
    lastCheckinDayUTC := some 9
    freezeTokens := 1
    freezeSaves := 0
    badges := []
    isParticipant := true }

theorem checkin_streak_transition_witness :
    canCheckIn exampleState 10 = true ∧
    (∃ r, applyCheckInWithMetadata exampleState 10 = .ok r ∧
      r.state.lastCheckinDayUTC = some 10 ∧
      (((missedDays exampleState 10 = 1 ∨
          canContinueWithFreeze exampleState 10 = true) ∧
          exampleState.streakStartDayUTC ≠ none ∧
          0 < exampleState.currentStreak) →
        r.state.currentStreak = exampleState.currentStreak + 1 ∧
        r.state.streakStartDayUTC = exampleState.streakStartDayUTC) ∧
      (¬ ((missedDays exampleState 10 = 1 ∨
          canContinueWithFreeze exampleState 10 = true) ∧
          exampleState.streakStartDayUTC ≠ none ∧
          0 < exampleState.currentStreak) →
        r.state.currentStreak = 1 ∧
        r.state.streakStartDayUTC = some 10)) :=
  ⟨by decide, checkin_streak_transition exampleState 10 (by decide)⟩

theorem checkin_freeze_consumption_witness :
    canCheckIn exampleState 11 = true ∧
    (∃ r, applyCheckInWithMetadata exampleState 11 = .ok r ∧
      (r.metadata.usedFreeze = true ↔
        ∃ last, exampleState.lastCheckinDayUTC = some last ∧
          (11 : Int) - last = 2 ∧ 0 < exampleState.freezeTokens) ∧
      (r.metadata.usedFreeze = true →
        r.state.freezeTokens
            = exampleState.freezeTokens - 1 +
                (if r.metadata.earnedFreeze = true then 1 else 0) ∧
        r.state.freezeSaves = exampleState.freezeSaves + 1 ∧
        isContinuation exampleState 11 = true) ∧
      (∀ last, exampleState.lastCheckinDayUTC = some last →
        3 ≤ (11 : Int) - last →
        r.state.currentStreak = 1 ∧
        r.state.streakStartDayUTC = some 11 ∧
        r.state.freezeTokens = exampleState.freezeTokens ∧
        r.state.freezeSaves = exampleState.freezeSaves ∧
        r.metadata.usedFreeze = false)) :=
  ⟨by decide, checkin_freeze_consumption exampleState 11 (by decide)⟩

theorem checkin_error_iff_witness :
    ((∃ msg, applyCheckInWithMetadata exampleState 9 = .error msg) ↔
      ∃ last, exampleState.lastCheckinDayUTC = some last ∧ (9 : Int) ≤ last) ∧
    ((∃ msg, applyCheckInWithMetadata exampleState 9 = .error msg) ↔
      canCheckIn exampleState 9 = false) ∧
    (∀ s1, applyCheckIn exampleState 9 = .ok s1 →
      applyCheckInWithMetadata s1 9
        = .error "User has already checked in for this UTC day") :=
  checkin_error_iff exampleState 9

theorem checkin_freeze_earning_witness :
    exampleState.freezeTokens ≤ 2 ∧ canCheckIn exampleState 10 = true ∧
    (∃ r, applyCheckInWithMetadata exampleState 10 = .ok r ∧
      (r.metadata.earnedFreeze = true ↔
        (r.state.currentStreak % 7 = 0 ∧ 0 < r.state.currentStreak ∧
          tokensAfterConsume exampleState 10 < 2)) ∧
      (r.metadata.earnedFreeze = true →
        r.state.freezeTokens = tokensAfterConsume exampleState 10 + 1) ∧
      (r.metadata.earnedFreeze = false →
        r.state.freezeTokens = tokensAfterConsume exampleState 10) ∧
      r.state.freezeTokens ≤ 2 ∧
      (applyCheckInWithMetadata bothFreezeExample 12).map
          (fun result =>
            (result.metadata.usedFreeze, result.metadata.earnedFreeze))
        = .ok (true, true)) :=
  ⟨by decide, by decide,
    checkin_freeze_earning exampleState 10 (by decide) (by decide)⟩

theorem checkin_badges_witness :
    canCheckIn exampleState 10 = true ∧
    (∃ r, applyCheckInWithMetadata exampleState 10 = .ok r ∧
      (∀ m, m ∈ BADGE_MILESTONES → m.streak = r.state.currentStreak →
        m.badge ∉ exampleState.badges →
        r.metadata.earnedBadge = some m.badge ∧
        r.state.badges = exampleState.badges ++ [m.badge]) ∧
      ((¬ ∃ m, m ∈ BADGE_MILESTONES ∧ m.streak = r.state.currentStreak ∧
          m.badge ∉ exampleState.badges) →
        r.metadata.earnedBadge = none ∧
        r.state.badges = exampleState.badges) ∧
      exampleState.badges <+: r.state.badges ∧
      (exampleState.badges.Nodup → r.state.badges.Nodup)) :=
  ⟨by decide, checkin_badges exampleState 10 (by decide)⟩

theorem checkin_best_streak_witness :
    canCheckIn exampleState 10 = true ∧
    (∃ r, applyCheckInWithMetadata exampleState 10 = .ok r ∧
      r.state.bestStreak = max exampleState.bestStreak r.state.currentStreak ∧
      r.state.currentStreak ≤ r.state.bestStreak ∧
      exampleState.bestStreak ≤ r.state.bestStreak) :=
  ⟨by decide, checkin_best_streak exampleState 10 (by decide)⟩

/-! ### Aggregate stats engine (`src/server/core/stats.ts`) -/

/-- The `AggregateStats` record from `stats.ts`. -/
structure AggregateStats where
  lastStatsDay : Int
  participantsTotal : Int
  checkinsToday : Int
  checkinsAllTime : Int
  longestStreakAllTime : Int
deriving DecidableEq, Repr

/-- The `AggregateStatsMutation` record from `stats.ts`; an absent optional
boolean is falsy in the source, so it is modelled as `false`. -/
structure AggregateStatsMutation where
  incrementParticipants : Bool
  incrementCheckins : Bool
  bestStreakCandidate : Option Int
deriving DecidableEq, Repr

/-- The `CheckinStatsInput` record from `stats.ts`. -/
structure CheckinStatsInput where
  wasNewTodayCheckin : Bool
  todaySetSize : Int
  bestStreakCandidate : Option Int
deriving DecidableEq, Repr

/-- `createEmptyAggregateStats` from `stats.ts`. -/
def createEmptyAggregateStats (todayDay : Int) : AggregateStats :=
  { lastStatsDay := todayDay
    participantsTotal := 0
    checkinsToday := 0
    checkinsAllTime := 0
    longestStreakAllTime := 0 }

/-- `normalizeAggregateStatsDay` from `stats.ts`: on day rollover, reset the
daily counter and advance `lastStatsDay`. -/
def normalizeAggregateStatsDay (stats : AggregateStats) (todayDay : Int) :
    AggregateStats :=
  if stats.lastStatsDay = todayDay then stats
  else { stats with lastStatsDay := todayDay, checkinsToday := 0 }

/-- `applyAggregateStatsMutation` from `stats.ts`. -/
def applyAggregateStatsMutation (stats : AggregateStats) (todayDay : Int)
    (mutation : AggregateStatsMutation) : AggregateStats :=
  let normalized := normalizeAggregateStatsDay stats todayDay
  let next1 :=
    if mutation.incrementParticipants then
      { normalized with participantsTotal := normalized.participantsTotal + 1 }
    else normalized
  let next2 :=
    if mutation.incrementCheckins then
      { next1 with
        checkinsToday := next1.checkinsToday + 1
        checkinsAllTime := next1.checkinsAllTime + 1 }
    else next1
  match mutation.bestStreakCandidate with
  | some candidate =>
    if candidate > next2.longestStreakAllTime then
      { next2 with longestStreakAllTime := candidate }
    else next2
  | none => next2

/-- `applyCheckinStatsUpdate` from `stats.ts`: run the mutation, then
overwrite `checkinsToday` with the clamped authoritative set size. -/
def applyCheckinStatsUpdate (stats : AggregateStats) (todayDay : Int)
    (input : CheckinStatsInput) : AggregateStats :=
  let mutated := applyAggregateStatsMutation stats todayDay
    { incrementParticipants := false
      incrementCheckins := input.wasNewTodayCheckin
      bestStreakCandidate := input.bestStreakCandidate }
  { mutated with checkinsToday := max 0 input.todaySetSize }

/-- C7 counterexample: `applyCheckinStatsUpdate` does not overwrite
`checkinsToday` with a negative `todaySetSize`; the source clamps it with
`Math.max(0, ...)`, so the stored value is `0`, not `-1`. -/
theorem stats_overwrite_counterexample :
    ¬ ((applyCheckinStatsUpdate (createEmptyAggregateStats 0) 0
        { wasNewTodayCheckin := false
          todaySetSize := -1
          bestStreakCandidate := none }).checkinsToday = -1) := by
  decide

/-- C7 (amended): a check-in stats update stamps `lastStatsDay = todayDay`,
adds 1 to `checkinsAllTime` exactly when the check-in was new today,
overwrites `checkinsToday` with `max 0 todaySetSize`, raises
`longestStreakAllTime` to the candidate when one is provided and larger, and
leaves `participantsTotal` unchanged. -/
theorem stats_checkin_update (s : AggregateStats) (d : Int)
    (inp : CheckinStatsInput) :
    (applyCheckinStatsUpdate s d inp).lastStatsDay = d ∧
    (applyCheckinStatsUpdate s d inp).checkinsAllTime
        = s.checkinsAllTime +
            (if inp.wasNewTodayCheckin = true then 1 else 0) ∧
    (applyCheckinStatsUpdate s d inp).checkinsToday
        = max 0 inp.todaySetSize ∧
    (∀ c, inp.bestStreakCandidate = some c →
      (applyCheckinStatsUpdate s d inp).longestStreakAllTime
          = max s.longestStreakAllTime c) ∧
    (inp.bestStreakCandidate = none →
      (applyCheckinStatsUpdate s d inp).longestStreakAllTime
          = s.longestStreakAllTime) ∧
    (applyCheckinStatsUpdate s d inp).participantsTotal
        = s.participantsTotal := by
  obtain ⟨w, t, bsc⟩ := inp
  obtain ⟨ld, pt, ct, cat, lsa⟩ := s
  simp only [applyCheckinStatsUpdate, applyAggregateStatsMutation,
    normalizeAggregateStatsDay]
  cases w <;> cases bsc <;> split_ifs <;> simp_all <;>
    split_ifs <;> simp_all <;> omega

theorem stats_checkin_update_witness :
    (applyCheckinStatsUpdate ⟨5, 3, 2, 10, 4⟩ 6 ⟨true, 7, some 9⟩).lastStatsDay
        = 6 ∧
    (applyCheckinStatsUpdate ⟨5, 3, 2, 10, 4⟩ 6
        ⟨true, 7, some 9⟩).checkinsAllTime
        = 10 + (if true = true then 1 else 0) ∧
    (applyCheckinStatsUpdate ⟨5, 3, 2, 10, 4⟩ 6 ⟨true, 7, some 9⟩).checkinsToday
        = max 0 7 ∧
    (∀ c, (some 9 : Option Int) = some c →
      (applyCheckinStatsUpdate ⟨5, 3, 2, 10, 4⟩ 6
          ⟨true, 7, some 9⟩).longestStreakAllTime = max 4 c) ∧
    ((some 9 : Option Int) = none →
      (applyCheckinStatsUpdate ⟨5, 3, 2, 10, 4⟩ 6
          ⟨true, 7, some 9⟩).longestStreakAllTime = 4) ∧
    (applyCheckinStatsUpdate ⟨5, 3, 2, 10, 4⟩ 6
        ⟨true, 7, some 9⟩).participantsTotal = 3 :=
  stats_checkin_update ⟨5, 3, 2, 10, 4⟩ 6 ⟨true, 7, some 9⟩

/-! ### Action throttle (`src/server/core/rate_limit.ts`) -/

/-- The `RateLimitDecision` record from `rate_limit.ts`. -/
structure RateLimitDecision where
  allowed : Bool
  retryAfterMs : Int
deriving DecidableEq, Repr

/-- `ACTION_THROTTLE_WINDOW_MS` from `rate_limit.ts` (the default value of
the `windowMs` parameter of `evaluateActionThrottle`). -/
def ACTION_THROTTLE_WINDOW_MS : Int := 2000

/-- `evaluateActionThrottle` from `rate_limit.ts`. The `windowMs` parameter
defaults to `ACTION_THROTTLE_WINDOW_MS` in the source; here it is passed
explicitly. -/
def evaluateActionThrottle (nowMs : Int) (lastAttemptMs : Option Int)
    (windowMs : Int) : RateLimitDecision :=
  match lastAttemptMs with
  | none => { allowed := true, retryAfterMs := 0 }
  | some last =>
    if last > nowMs then { allowed := true, retryAfterMs := 0 }
    else
      let elapsedMs := nowMs - last
      if elapsedMs ≥ windowMs then { allowed := true, retryAfterMs := 0 }
      else { allowed := false, retryAfterMs := max (windowMs - elapsedMs) 0 }

/-- C10: a recorded last-attempt timestamp in the future relative to the
current clock never locks the caller out: the throttle allows the action
with no retry delay. -/
theorem throttle_future_attempt_allowed (nowMs last windowMs : Int)
    (h : nowMs < last) :
    evaluateActionThrottle nowMs (some last) windowMs
      = { allowed := true, retryAfterMs := 0 } := by
  simp [evaluateActionThrottle, h]

theorem throttle_future_attempt_allowed_witness :
    (100 : Int) < 250 ∧
    evaluateActionThrottle 100 (some 250) ACTION_THROTTLE_WINDOW_MS
      = { allowed := true, retryAfterMs := 0 } :=
  ⟨by decide, throttle_future_attempt_allowed 100 250
    ACTION_THROTTLE_WINDOW_MS (by decide)⟩

/-! ### Leaderboard ordering (`compareLeaderboardEntries` in `streak.ts`) -/

/-- The `LeaderboardEntry` record from `streak.ts`. -/
structure LeaderboardEntry where
  userId : String
  currentStreak : Int
  bestStreak : Int
  streakAchievedDayUTC : Option Int
  streakStartDayUTC : Option Int
  lastCheckinDayUTC : Option Int
deriving DecidableEq, Repr

/-- `a.localeCompare(b)` on user ids, modelled as lexicographic string
comparison: negative when `a` sorts before `b`, positive when after,
zero on equality. -/
def localeCompare (a b : String) : Int :=
  if a < b then -1 else if b < a then 1 else 0

/-- The achieved-day tie-break key of `compareLeaderboardEntries`:
`streakAchievedDayUTC ?? lastCheckinDayUTC ?? tieBreakDay`. -/
def achievedDay (e : LeaderboardEntry) (tieBreakDay : Int) : Int :=
  match e.streakAchievedDayUTC with
  | some v => v
  | none =>
    match e.lastCheckinDayUTC with
    | some v => v
    | none => tieBreakDay

/-- `compareLeaderboardEntries` from `streak.ts`; the `tieBreakDay`
parameter defaults to `Number.MAX_SAFE_INTEGER` in the source and is passed
explicitly here. -/
def compareLeaderboardEntries (a b : LeaderboardEntry) (tieBreakDay : Int) :
    Int :=
  if b.currentStreak ≠ a.currentStreak then b.currentStreak - a.currentStreak
  else if b.bestStreak ≠ a.bestStreak then b.bestStreak - a.bestStreak
  else if achievedDay a tieBreakDay ≠ achievedDay b tieBreakDay then
    achievedDay a tieBreakDay - achievedDay b tieBreakDay
  else localeCompare a.userId b.userId

theorem compare_lt_iff (a b : LeaderboardEntry) (t : Int) :
    compareLeaderboardEntries a b t < 0 ↔
      (b.currentStreak < a.currentStreak ∨
       (b.currentStreak = a.currentStreak ∧ b.bestStreak < a.bestStreak) ∨
       (b.currentStreak = a.currentStreak ∧ b.bestStreak = a.bestStreak ∧
         achievedDay a t < achievedDay b t) ∨
       (b.currentStreak = a.currentStreak ∧ b.bestStreak = a.bestStreak ∧
         achievedDay a t = achievedDay b t ∧ a.userId < b.userId)) := by
  unfold compareLeaderboardEntries localeCompare
  split_ifs with c1 c2 c3 c4 c5
  · constructor
    · intro h
      exact Or.inl (by omega)
    · rintro (h | ⟨e1, h⟩ | ⟨e1, e2, h⟩ | ⟨e1, e2, e3, h⟩) <;> omega
  · constructor
    · intro h
      exact Or.inr (Or.inl ⟨by omega, by omega⟩)
    · rintro (h | ⟨e1, h⟩ | ⟨e1, e2, h⟩ | ⟨e1, e2, e3, h⟩) <;> omega
  · constructor
    · intro h
      exact Or.inr (Or.inr (Or.inl ⟨by omega, by omega, by omega⟩))
    · rintro (h | ⟨e1, h⟩ | ⟨e1, e2, h⟩ | ⟨e1, e2, e3, h⟩) <;> omega
  · constructor
    · intro h
      exact Or.inr (Or.inr (Or.inr ⟨by omega, by omega, by omega, c4⟩))
    · intro h
      omega
  · constructor
    · intro h
      exact absurd h (by omega)
    · rintro (h | ⟨e1, h⟩ | ⟨e1, e2, h⟩ | ⟨e1, e2, e3, h⟩)
      · omega
      · omega
      · omega
      · exact absurd h c4
  · constructor
    · intro h
      exact absurd h (by omega)
    · rintro (h | ⟨e1, h⟩ | ⟨e1, e2, h⟩ | ⟨e1, e2, e3, h⟩)
      · omega
      · omega
      · omega
      · exact absurd h c4

theorem localeCompare_antisymm (a b : String) :
    localeCompare a b = -(localeCompare b a) := by
  unfold localeCompare
  rcases lt_trichotomy a b with h | h | h
  · simp [h, lt_asymm h]
  · subst h
    simp
  · simp [h, lt_asymm h]

theorem localeCompare_self (a : String) : localeCompare a a = 0 := by
  simp [localeCompare]

theorem compare_antisymm (a b : LeaderboardEntry) (t : Int) :
    compareLeaderboardEntries a b t = -(compareLeaderboardEntries b a t) := by
  unfold compareLeaderboardEntries
  split_ifs <;> first
    | omega
    | exact localeCompare_antisymm a.userId b.userId

theorem compare_eq_zero_userId (a b : LeaderboardEntry) (t : Int)
    (h : compareLeaderboardEntries a b t = 0) : a.userId = b.userId := by
  unfold compareLeaderboardEntries localeCompare at h
  split_ifs at h <;> try (exfalso; omega)
  rename_i hab hba
  exact le_antisymm (not_lt.mp hba) (not_lt.mp hab)

theorem compare_lt_trans (a b c : LeaderboardEntry) (t : Int)
    (hab : compareLeaderboardEntries a b t < 0)
    (hbc : compareLeaderboardEntries b c t < 0) :
    compareLeaderboardEntries a c t < 0 := by
  rw [compare_lt_iff] at hab hbc ⊢
  rcases hab with h1 | ⟨e1, h1⟩ | ⟨e1, e2, h1⟩ | ⟨e1, e2, e3, h1⟩ <;>
    rcases hbc with h2 | ⟨f1, h2⟩ | ⟨f1, f2, h2⟩ | ⟨f1, f2, f3, h2⟩
  all_goals try (exact Or.inl (by omega))
  all_goals try (exact Or.inr (Or.inl ⟨by omega, by omega⟩))
  all_goals try (exact Or.inr (Or.inr (Or.inl ⟨by omega, by omega, by omega⟩)))
  exact Or.inr (Or.inr (Or.inr
    ⟨by omega, by omega, by omega, lt_trans h1 h2⟩))

/-- C8: `compareLeaderboardEntries` is a deterministic strict total order on
entries with distinct `userId`: it is reflexive-zero, antisymmetric,
transitive on strict comparisons, returns zero only when the `userId` keys
coincide (so entries with different `userId` are never tied), and ranks `a`
before `b` exactly by `currentStreak` descending, then `bestStreak`
descending, then the achieved-day key ascending, then `userId` ascending. -/
theorem leaderboard_comparator_total_order (a b c : LeaderboardEntry)
    (t : Int) :
    compareLeaderboardEntries a a t = 0 ∧
    compareLeaderboardEntries a b t
        = -(compareLeaderboardEntries b a t) ∧
    (compareLeaderboardEntries a b t = 0 → a.userId = b.userId) ∧
    (compareLeaderboardEntries a b t < 0 →
      compareLeaderboardEntries b c t < 0 →
      compareLeaderboardEntries a c t < 0) ∧
    (compareLeaderboardEntries a b t < 0 ↔
      (b.currentStreak < a.currentStreak ∨
       (b.currentStreak = a.currentStreak ∧ b.bestStreak < a.bestStreak) ∨
       (b.currentStreak = a.currentStreak ∧ b.bestStreak = a.bestStreak ∧
         achievedDay a t < achievedDay b t) ∨
       (b.currentStreak = a.currentStreak ∧ b.bestStreak = a.bestStreak ∧
         achievedDay a t = achievedDay b t ∧ a.userId < b.userId))) := by
  refine ⟨?_, compare_antisymm a b t, compare_eq_zero_userId a b t,
    compare_lt_trans a b c t, compare_lt_iff a b t⟩
  unfold compareLeaderboardEntries
  split_ifs <;> first
    | omega
    | exact localeCompare_self a.userId

theorem leaderboard_comparator_total_order_witness :
    compareLeaderboardEntries ⟨"alice", 4, 6, some 3, none, some 3⟩
        ⟨"alice", 4, 6, some 3, none, some 3⟩ 9007199254740991 = 0 ∧
    compareLeaderboardEntries ⟨"alice", 4, 6, some 3, none, some 3⟩
        ⟨"bob", 4, 6, some 3, none, some 3⟩ 9007199254740991
      = -(compareLeaderboardEntries ⟨"bob", 4, 6, some 3, none, some 3⟩
          ⟨"alice", 4, 6, some 3, none, some 3⟩ 9007199254740991) ∧
    (compareLeaderboardEntries ⟨"alice", 4, 6, some 3, none, some 3⟩
        ⟨"bob", 4, 6, some 3, none, some 3⟩ 9007199254740991 = 0 →
      ("alice" : String) = "bob") ∧
    (compareLeaderboardEntries ⟨"alice", 4, 6, some 3, none, some 3⟩
        ⟨"bob", 4, 6, some 3, none, some 3⟩ 9007199254740991 < 0 →
      compareLeaderboardEntries ⟨"bob", 4, 6, some 3, none, some 3⟩
        ⟨"carol", 2, 2, none, none, none⟩ 9007199254740991 < 0 →
      compareLeaderboardEntries ⟨"alice", 4, 6, some 3, none, some 3⟩
        ⟨"carol", 2, 2, none, none, none⟩ 9007199254740991 < 0) ∧
    (compareLeaderboardEntries ⟨"alice", 4, 6, some 3, none, some 3⟩
        ⟨"bob", 4, 6, some 3, none, some 3⟩ 9007199254740991 < 0 ↔
      ((4 : Int) < 4 ∨
       ((4 : Int) = 4 ∧ (6 : Int) < 6) ∨
       ((4 : Int) = 4 ∧ (6 : Int) = 6 ∧
         achievedDay ⟨"alice", 4, 6, some 3, none, some 3⟩ 9007199254740991
           < achievedDay ⟨"bob", 4, 6, some 3, none, some 3⟩
               9007199254740991) ∨
       ((4 : Int) = 4 ∧ (6 : Int) = 6 ∧
         achievedDay ⟨"alice", 4, 6, some 3, none, some 3⟩ 9007199254740991
           = achievedDay ⟨"bob", 4, 6, some 3, none, some 3⟩
               9007199254740991 ∧
         ("alice" : String) < "bob"))) :=
  leaderboard_comparator_total_order
    ⟨"alice", 4, 6, some 3, none, some 3⟩
    ⟨"bob", 4, 6, some 3, none, some 3⟩
    ⟨"carol", 2, 2, none, none, none⟩ 9007199254740991

/-! ### User-state deserialization and generation fencing (`streak.ts`) -/

/-- `STATE_GENERATION_FIELD` from `streak.ts`. -/
def STATE_GENERATION_FIELD : String := "stateGeneration"

/-- `UNSET_DAY` from `streak.ts`. -/
def UNSET_DAY : String := "-1"

/-- `BADGE_NAMES` from `streak.ts`. -/
def BADGE_NAMES : List String :=
  BADGE_MILESTONES.map (fun entry => entry.badge)

/-- `parseNonNegativeInt` from `streak.ts` (duplicated verbatim in
`stats.ts`); `Number.parseInt(value, 10)` is modelled by `String.toInt?`,
with `none` playing the role of `NaN`, and the falsy test `!value` covers
both an absent field and the empty string. -/
def parseNonNegativeInt (value : Option String) (fallback : Int) : Int :=
  match value with
  | none => fallback
  | some s =>
    if s = "" then fallback
    else
      match s.toInt? with
      | none => fallback
      | some parsed => if parsed < 0 then fallback else parsed

/-- `fromDayStorage` from `streak.ts`. -/
def fromDayStorage (value : Option String) : Option Int :=
  match value with
  | none => none
  | some s =>
    if s = "" ∨ s = UNSET_DAY then none
    else
      match s.toInt? with
      | none => none
      | some parsed => if parsed < 0 then none else some parsed

/-- `parsePrivacy` from `streak.ts`. -/
def parsePrivacy (value : Option String) : Privacy :=
  if value = some "private" then .priv else .pub

/-- `JSON.parse` restricted to arrays of plain strings, modelled as the
partial inverse of the encoding `serializeUserState` writes with
`JSON.stringify` on badge-name lists; any other input throws in the source,
which is modelled as `none`. -/
def jsonParseStringArray (raw : String) : Option (List String) :=
  if raw = "[]" then some []
  else if raw.startsWith "[\"" && raw.endsWith "\"]" then
    some (((raw.drop 2).dropRight 2).splitOn "\",\"")
  else none

/-- `parseBadges` from `streak.ts`: decode the stored JSON array, keep only
known badge names without duplicates, and order them by milestone order. -/
def parseBadges (raw : Option String) : List String :=
  match raw with
  | none => []
  | some s =>
    if s = "" then []
    else
      match jsonParseStringArray s with
      | none => []
      | some parsed =>
        let uniqueBadges :=
          (parsed.filter (fun value => BADGE_NAMES.contains value)).dedup
        (BADGE_MILESTONES.map (fun entry => entry.badge)).filter
          (fun badge => uniqueBadges.contains badge)

/-- `deserializeUserState` from `streak.ts`: the stored hash (field/value
pairs as returned by `hGetAll`) is absent when empty or when its
`stateGeneration` tag does not match the current generation. -/
def deserializeUserState (data : List (String × String))
    (currentStateGeneration : Int) : Option UserState :=
  if data.length = 0 then none
  else
    let storedStateGeneration :=
      parseNonNegativeInt (data.lookup STATE_GENERATION_FIELD) 0
    if storedStateGeneration ≠ currentStateGeneration then none
    else
      some
        { joinedAt := (data.lookup "joinedAt").getD "1970-01-01T00:00:00.000Z"
          privacy := parsePrivacy (data.lookup "privacy")
          currentStreak := parseNonNegativeInt (data.lookup "currentStreak") 0
          bestStreak := parseNonNegativeInt (data.lookup "bestStreak") 0
          streakStartDayUTC := fromDayStorage (data.lookup "streakStartDayUTC")
          lastCheckinDayUTC := fromDayStorage (data.lookup "lastCheckinDayUTC")
          freezeTokens :=
            min (parseNonNegativeInt (data.lookup "freezeTokens") 0)
              MAX_FREEZE_TOKENS
          freezeSaves := parseNonNegativeInt (data.lookup "freezeSaves") 0
          badges := parseBadges (data.lookup "badges")
          isParticipant := (data.lookup "isParticipant") != some "0" }

/-- `keys.userState` from `streak.ts`. -/
def userStateKey (subredditId userId : String) : String :=
  "user:" ++ (subredditId ++ (":" ++ userId))

/-- `keys.devSettings` from `streak.ts`. -/
def devSettingsKey (subredditId : String) : String := "dev:" ++ subredditId

/-- `keys.leaderboard` from `streak.ts`. -/
def leaderboardKey (subredditId : String) : String := "lb:" ++ subredditId

/-- `keys.usernames` from `streak.ts`. -/
def usernamesKey (subredditId : String) : String := "names:" ++ subredditId

/-- `keys.challengeStats` from `streak.ts`. -/
def challengeStatsKey (subredditId : String) : String :=
  "stats:" ++ subredditId

/-- `keys.participants` from `streak.ts`. -/
def participantsKey (subredditId : String) : String :=
  "participants:" ++ subredditId

/-- The slice of redis the reset path touches: every key holds a hash,
modelled as a list of field/value pairs. -/
structure RedisStore where
  hashes : String → List (String × String)

/-- Set one field of a hash, overwriting an existing binding in place or
appending a fresh one. -/
def setHashField (h : List (String × String)) (field value : String) :
    List (String × String) :=
  if h.any (fun p => p.1 = field) then
    h.map (fun p => if p.1 = field then (field, value) else p)
  else h ++ [(field, value)]

/-- `redis.hSet` with an object of field/value pairs. -/
def hSet (store : RedisStore) (key : String)
    (fields : List (String × String)) : RedisStore :=
  { hashes := fun k =>
      if k = key then
        fields.foldl (fun acc p => setHashField acc p.1 p.2) (store.hashes k)
      else store.hashes k }

/-- `redis.hIncrBy`: read the field as an integer (0 when absent), add the
increment, store the new value back and return it. -/
def hIncrBy (store : RedisStore) (key field : String) (incr : Int) :
    RedisStore × Int :=
  let current := (((store.hashes key).lookup field).bind String.toInt?).getD 0
  let next := current + incr
  (hSet store key [(field, toString next)], next)

/-- `redis.del` applied to several keys. -/
def del (store : RedisStore) (ks : List String) : RedisStore :=
  { hashes := fun k => if k ∈ ks then [] else store.hashes k }

/-- `getStateGeneration` from `streak.ts`. -/
def getStateGeneration (store : RedisStore) (subredditId : String) : Int :=
  match (store.hashes (devSettingsKey subredditId)).lookup
      STATE_GENERATION_FIELD with
  | none => 0
  | some raw =>
    if raw = "" then 0
    else
      match raw.toInt? with
      | none => 0
      | some parsed => if parsed < 0 then 0 else parsed

/-- `getUserState` from `streak.ts`: read the stored hash and deserialize it
against the current generation. -/
def getUserState (store : RedisStore) (subredditId userId : String) :
    Option UserState :=
  deserializeUserState (store.hashes (userStateKey subredditId userId))
    (getStateGeneration store subredditId)

/-- The integer value `hIncrBy` reads from the generation counter field. -/
def rawStateGeneration (store : RedisStore) (subredditId : String) : Int :=
  (((store.hashes (devSettingsKey subredditId)).lookup
    STATE_GENERATION_FIELD).bind String.toInt?).getD 0

/-- `resetChallengeProgress` from `streak.ts`: bump the generation counter,
zero the dev clock offsets, and delete the leaderboard, usernames, stats and
participants keys. -/
def resetChallengeProgress (store : RedisStore) (subredditId : String) :
    RedisStore × Int :=
  let incremented :=
    hIncrBy store (devSettingsKey subredditId) STATE_GENERATION_FIELD 1
  let store2 := hSet incremented.1 (devSettingsKey subredditId)
    [("devDayOffset", "0"), ("devTimeOffsetSeconds", "0")]
  let store3 := del store2
    [leaderboardKey subredditId, usernamesKey subredditId,
     challengeStatsKey subredditId, participantsKey subredditId]
  (store3, incremented.2)

theorem lookup_setHashField (h : List (String × String)) (f v : String) :
    (setHashField h f v).lookup f = some v := by
  induction h with
  | nil => simp [setHashField, List.lookup]
  | cons p t ih =>
    by_cases hp : p.1 = f
    · simp [setHashField, hp, List.lookup]
    · have hp' : (f == p.1) = false := by
        simp only [beq_eq_false_iff_ne]
        exact fun he => hp he.symm
      by_cases hany : t.any (fun q => q.1 = f) = true
      · have ih' := ih
        simp [setHashField, hany] at ih'
        simp [setHashField, hp, hany, List.lookup, hp', ih']
      · have ih' := ih
        simp [setHashField, hany] at ih'
        simp [setHashField, hp, hany, List.lookup, hp', ih']

theorem lookup_map_overwrite_ne (h : List (String × String))
    (f f' v : String) (hne : f ≠ f') :
    (h.map (fun p => if p.1 = f then (f, v) else p)).lookup f'
      = h.lookup f' := by
  induction h with
  | nil => simp
  | cons p t ih =>
    simp only [List.map_cons]
    by_cases hp : p.1 = f
    · rw [if_pos hp]
      have hf' : (f' == f) = false := by
        simp only [beq_eq_false_iff_ne]
        exact fun he => hne he.symm
      have hf'p : (f' == p.1) = false := by
        rw [hp]
        exact hf'
      simp [List.lookup, hf', hf'p, ih]
    · rw [if_neg hp]
      cases hfp : f' == p.1 <;> simp [List.lookup, hfp, ih]

theorem lookup_append_single_ne (h : List (String × String))
    (f f' v : String) (hne : f ≠ f') :
    (h ++ [(f, v)]).lookup f' = h.lookup f' := by
  induction h with
  | nil =>
    have hf' : (f' == f) = false := by
      simp only [beq_eq_false_iff_ne]
      exact fun he => hne he.symm
    simp [List.lookup, hf']
  | cons p t ih =>
    by_cases hp : (f' == p.1) = true
    · simp [List.lookup, hp]
    · simp only [Bool.not_eq_true] at hp
      simp [List.lookup, hp, ih]

theorem lookup_setHashField_ne (h : List (String × String))
    (f f' v : String) (hne : f ≠ f') :
    (setHashField h f v).lookup f' = h.lookup f' := by
  unfold setHashField
  split
  · exact lookup_map_overwrite_ne h f f' v hne
  · exact lookup_append_single_ne h f f' v hne

theorem key_prefix_ne (c c' : Char) (cs cs' : List Char) (p q x y : String)
    (hp : p.data = c :: cs) (hq : q.data = c' :: cs') (hne : c ≠ c') :
    p ++ x ≠ q ++ y := by
  intro h
  have h2 := congrArg String.data h
  rw [String.data_append, String.data_append, hp, hq,
    List.cons_append, List.cons_append] at h2
  injection h2 with h3 h4
  exact hne h3

theorem deserialize_mismatch (data : List (String × String)) (g : Int)
    (hg : parseNonNegativeInt (data.lookup STATE_GENERATION_FIELD) 0 ≠ g) :
    deserializeUserState data g = none := by
  simp [deserializeUserState, hg]

/-- C9: a stored user record whose `stateGeneration` tag does not parse to
the current generation deserializes to absent (so `getUserState` treats it
as never joined), and `resetChallengeProgress` increments the stored
generation counter by exactly 1 while leaving every per-user state key
untouched. -/
theorem generation_fencing (data : List (String × String)) (g : Int)
    (store : RedisStore) (sub uid : String)
    (hg : parseNonNegativeInt (data.lookup STATE_GENERATION_FIELD) 0 ≠ g) :
    deserializeUserState data g = none ∧
    (parseNonNegativeInt
        ((store.hashes (userStateKey sub uid)).lookup STATE_GENERATION_FIELD)
        0 ≠ getStateGeneration store sub →
      getUserState store sub uid = none) ∧
    (resetChallengeProgress store sub).2
        = rawStateGeneration store sub + 1 ∧
    ((resetChallengeProgress store sub).1.hashes
        (devSettingsKey sub)).lookup STATE_GENERATION_FIELD
      = some (toString (rawStateGeneration store sub + 1)) ∧
    (resetChallengeProgress store sub).1.hashes (userStateKey sub uid)
      = store.hashes (userStateKey sub uid) := by
  have hdl : devSettingsKey sub ≠ leaderboardKey sub :=
    key_prefix_ne 'd' 'l' ['e', 'v', ':'] ['b', ':'] "dev:" "lb:" sub sub
      (by decide) (by decide) (by decide)
  have hdn : devSettingsKey sub ≠ usernamesKey sub :=
    key_prefix_ne 'd' 'n' ['e', 'v', ':'] ['a', 'm', 'e', 's', ':']
      "dev:" "names:" sub sub (by decide) (by decide) (by decide)
  have hds : devSettingsKey sub ≠ challengeStatsKey sub :=
    key_prefix_ne 'd' 's' ['e', 'v', ':'] ['t', 'a', 't', 's', ':']
      "dev:" "stats:" sub sub (by decide) (by decide) (by decide)
  have hdp : devSettingsKey sub ≠ participantsKey sub :=
    key_prefix_ne 'd' 'p' ['e', 'v', ':']
      ['a', 'r', 't', 'i', 'c', 'i', 'p', 'a', 'n', 't', 's', ':']
      "dev:" "participants:" sub sub (by decide) (by decide) (by decide)
  have hul : userStateKey sub uid ≠ leaderboardKey sub :=
    key_prefix_ne 'u' 'l' ['s', 'e', 'r', ':'] ['b', ':'] "user:" "lb:"
      (sub ++ (":" ++ uid)) sub (by decide) (by decide) (by decide)
  have hun : userStateKey sub uid ≠ usernamesKey sub :=
    key_prefix_ne 'u' 'n' ['s', 'e', 'r', ':'] ['a', 'm', 'e', 's', ':']
      "user:" "names:" (sub ++ (":" ++ uid)) sub
      (by decide) (by decide) (by decide)
  have hus : userStateKey sub uid ≠ challengeStatsKey sub :=
    key_prefix_ne 'u' 's' ['s', 'e', 'r', ':'] ['t', 'a', 't', 's', ':']
      "user:" "stats:" (sub ++ (":" ++ uid)) sub
      (by decide) (by decide) (by decide)
  have hup : userStateKey sub uid ≠ participantsKey sub :=
    key_prefix_ne 'u' 'p' ['s', 'e', 'r', ':']
      ['a', 'r', 't', 'i', 'c', 'i', 'p', 'a', 'n', 't', 's', ':']
      "user:" "participants:" (sub ++ (":" ++ uid)) sub
      (by decide) (by decide) (by decide)
  have hud : userStateKey sub uid ≠ devSettingsKey sub :=
    key_prefix_ne 'u' 'd' ['s', 'e', 'r', ':'] ['e', 'v', ':']
      "user:" "dev:" (sub ++ (":" ++ uid)) sub
      (by decide) (by decide) (by decide)
  refine ⟨deserialize_mismatch data g hg, ?_, rfl, ?_, ?_⟩
  · intro hstore
    exact deserialize_mismatch _ _ hstore
  · have hmemd : devSettingsKey sub ∉
        [leaderboardKey sub, usernamesKey sub, challengeStatsKey sub,
         participantsKey sub] := by
      simp [hdl, hdn, hds, hdp]
    simp only [resetChallengeProgress, hIncrBy, del, hSet, List.foldl]
    rw [if_neg hmemd]
    simp only [if_true, if_pos trivial, eq_self_iff_true]
    rw [lookup_setHashField_ne _ "devTimeOffsetSeconds"
        STATE_GENERATION_FIELD "0" (by decide),
      lookup_setHashField_ne _ "devDayOffset" STATE_GENERATION_FIELD "0"
        (by decide),
      lookup_setHashField]
    rfl
  · have hmemu : userStateKey sub uid ∉
        [leaderboardKey sub, usernamesKey sub, challengeStatsKey sub,
         participantsKey sub] := by
      simp [hul, hun, hus, hup]
    simp only [resetChallengeProgress, hIncrBy, del, hSet, List.foldl]
    rw [if_neg hmemu, if_neg hud, if_neg hud]

/-- Concrete empty store used to instantiate the fencing theorem. -/
def exampleStore : RedisStore :=
  { hashes := fun _ => [] }

theorem generation_fencing_witness :
    parseNonNegativeInt
        (([] : List (String × String)).lookup STATE_GENERATION_FIELD) 0
      ≠ 1 ∧
    (deserializeUserState [] 1 = none ∧
    (parseNonNegativeInt
        ((exampleStore.hashes (userStateKey "t5_x" "t2_y")).lookup
          STATE_GENERATION_FIELD) 0
        ≠ getStateGeneration exampleStore "t5_x" →
      getUserState exampleStore "t5_x" "t2_y" = none) ∧
    (resetChallengeProgress exampleStore "t5_x").2
        = rawStateGeneration exampleStore "t5_x" + 1 ∧
    ((resetChallengeProgress exampleStore "t5_x").1.hashes
        (devSettingsKey "t5_x")).lookup STATE_GENERATION_FIELD
      = some (toString (rawStateGeneration exampleStore "t5_x" + 1)) ∧
    (resetChallengeProgress exampleStore "t5_x").1.hashes
        (userStateKey "t5_x" "t2_y")
      = exampleStore.hashes (userStateKey "t5_x" "t2_y")) :=
  ⟨by decide,
    generation_fencing [] 1 exampleStore "t5_x" "t2_y" (by decide)⟩

end StreakClub
